import Mathlib

/-!
Verification of the WireGuard profile manager core
(`wg-manager/wg_manager/core.py`, class `WireGuardManager`).

Strings are modelled as `List Char`.  Python's string methods used by the
source (`str.lower`, `str.strip`, `str.split(sep)`, `str.split()`,
`str.replace`, the `in` substring test) are embedded below.  Python's
`str.lower` is modelled on the ASCII range only: the source only ever
searches for ASCII patterns inside lowered text, and a non-ASCII character
never lowers to an ASCII one, so the restriction is observation-equivalent
for every use in this module.  Python `float` values are modelled as exact
rationals (`ℚ`); the decimal literals appearing in this program are parsed
exactly, and `int(...)` on a float is truncation toward zero (`pyIntOfRat`).
The modelled subset of `float(str)` accepts an optional sign and decimal
digits with an optional fraction point, after stripping surrounding
whitespace; exponent, infinity and NaN forms are omitted (they never occur
in `wg show` transfer counters) and fall to the parse-failure branch that
the source maps to `0`.
-/

/-- Python whitespace for `str.strip()` / `str.split()` (ASCII subset). -/
def isWS (c : Char) : Bool :=
  c = ' ' || c = '\t' || c = '\n' || c = '\x0d' || c = '\x0b' || c = '\x0c'

/-- ASCII decimal digit test (same on its domain as Python's float grammar digits). -/
def isDigitCh (c : Char) : Bool :=
  48 ≤ c.toNat && c.toNat ≤ 57

/-- Python `str.lower`, restricted to ASCII (see module comment). -/
def pyLowerChar (c : Char) : Char :=
  if 65 ≤ c.toNat ∧ c.toNat ≤ 90 then Char.ofNat (c.toNat + 32) else c

/-- Python `str.lower` over the whole string. -/
def pyLower (s : List Char) : List Char := s.map pyLowerChar

/-- Python `str.strip()`: drop leading and trailing whitespace. -/
def pyStrip (s : List Char) : List Char :=
  ((s.dropWhile isWS).reverse.dropWhile isWS).reverse

/-- Python `pat in s` substring test. -/
def containsL : List Char → List Char → Bool
  | [], pat => pat.isEmpty
  | c :: rest, pat => pat.isPrefixOf (c :: rest) || containsL rest pat

/-- Python `s.split(sep)` for a one-character separator: split at every
occurrence, keeping empty pieces. -/
def splitPAux (p : Char → Bool) : List Char → List Char → List (List Char)
  | [], acc => [acc.reverse]
  | c :: rest, acc =>
    if p c then acc.reverse :: splitPAux p rest [] else splitPAux p rest (c :: acc)

def splitP (p : Char → Bool) (s : List Char) : List (List Char) := splitPAux p s []

/-- Python `s.split()` with no separator: split on whitespace runs, dropping
empty pieces. -/
def pySplitWS (s : List Char) : List (List Char) :=
  (splitP isWS s).filter (fun t => !t.isEmpty)

/-- Worker for `removeAll`; the fuel argument (initially the string length)
only makes the recursion structural and never runs out, since each step
consumes at least one character. -/
def removeAllGo (pat : List Char) : ℕ → List Char → List Char
  | _, [] => []
  | 0, s => s
  | fuel + 1, c :: rest =>
    if pat.isPrefixOf (c :: rest) && !pat.isEmpty then
      removeAllGo pat fuel ((c :: rest).drop pat.length)
    else
      c :: removeAllGo pat fuel rest

/-- Python `s.replace(pat, '')`: remove every (leftmost, non-overlapping)
occurrence of `pat`. -/
def removeAll (pat s : List Char) : List Char := removeAllGo pat s.length s

/-- Value of a string of decimal digits. -/
def digitsToNat (s : List Char) : ℕ :=
  s.foldl (fun a c => 10 * a + (c.toNat - 48)) 0

/-- An exactly-represented Python float value: `(-1)^neg * mant / 10^scale`.
Decimal literals are represented exactly; see the module comment. -/
structure PyFloat where
  neg : Bool
  mant : ℕ
  scale : ℕ
deriving DecidableEq

/-- The rational value denoted by a `PyFloat`. -/
def PyFloat.toRat (x : PyFloat) : ℚ :=
  (if x.neg then -1 else 1) * (x.mant : ℚ) / (10 : ℚ) ^ x.scale

/-- Unsigned part of the modelled Python `float(str)` grammar:
`digits`, `digits.digits`, `digits.` or `.digits`. -/
def parseUnsigned (s : List Char) : Option (ℕ × ℕ) :=
  let ip := s.takeWhile isDigitCh
  let rest := s.dropWhile isDigitCh
  match rest with
  | [] => if ip.isEmpty then none else some (digitsToNat ip, 0)
  | '.' :: fr =>
    if ip.isEmpty && fr.isEmpty then none
    else if fr.all isDigitCh then
      some (digitsToNat ip * 10 ^ fr.length + digitsToNat fr, fr.length)
    else none
  | _ => none

/-- Modelled Python `float(str)` (see module comment): strip surrounding
whitespace, optional sign, then the unsigned decimal grammar.  `none` stands
for `ValueError`. -/
def parseFloatD (s0 : List Char) : Option PyFloat :=
  match pyStrip s0 with
  | '+' :: r => (parseUnsigned r).map (fun p => ⟨false, p.1, p.2⟩)
  | '-' :: r => (parseUnsigned r).map (fun p => ⟨true, p.1, p.2⟩)
  | r => (parseUnsigned r).map (fun p => ⟨false, p.1, p.2⟩)

/-- Python `int(x * factor)` for a float `x` and integer `factor`:
multiplication is exact here, and `int` truncates toward zero. -/
def pyIntMul (x : PyFloat) (factor : ℕ) : ℤ :=
  (if x.neg then -1 else 1) * ((x.mant * factor / 10 ^ x.scale : ℕ) : ℤ)

/-- The unit-suffix dispatch of `WireGuardManager._parse_transfer`
(core.py lines 365-384), operating on the already-lowered string: the same
`elif` chain over `kib / mib / gib / kb / mb / gb`, returning the string to
feed to `float` together with the multiplier. -/
def transferBranch (s : List Char) : List Char × ℕ :=
  if containsL s "kib".toList then (removeAll "kib".toList s, 1024)
  else if containsL s "mib".toList then (removeAll "mib".toList s, 1024 * 1024)
  else if containsL s "gib".toList then (removeAll "gib".toList s, 1024 * 1024 * 1024)
  else if containsL s "kb".toList then (removeAll "kb".toList s, 1000)
  else if containsL s "mb".toList then (removeAll "mb".toList s, 1000 * 1000)
  else if containsL s "gb".toList then (removeAll "gb".toList s, 1000 * 1000 * 1000)
  else (s, 1)

/-- `WireGuardManager._parse_transfer` (core.py lines 365-384): lower the
input, dispatch on the unit suffix, strip, parse as float, multiply by the
unit factor and truncate to int; any parse failure returns 0 (the bare
`except` branch).  The source strips explicitly in the unit branches and
relies on `float`'s own whitespace tolerance in the plain branch; both are
modelled by the single strip inside/before `parseFloatD`. -/
def parse_transfer (s0 : List Char) : ℤ :=
  let s := pyLower s0
  let bf := transferBranch s
  match parseFloatD (pyStrip bf.1) with
  | some x => pyIntMul x bf.2
  | none => 0

/-- `ProfileStatus` (core.py lines 20-25). -/
inductive ProfileStatus
  | active
  | inactive
  | error
  | unknown
deriving DecidableEq

/-- Outcome of reading a profile's configuration file in `validate_profile`:
a successful read of its text, a `PermissionError` / `FileNotFoundError`
(both caught by the same handler), or any other exception with its message. -/
inductive ConfRead
  | ok (content : List Char)
  | permOrMissing
  | err (msg : List Char)

/-- The environment a `WireGuardManager` instance runs against: its
configured profile list (`self.profiles`) and the outcomes of the external
effects it performs — the retry-wrapped `wg show` query, the filesystem
existence test for `<name>.conf` (`False` already folded in for
`PermissionError` and other exceptions, as in core.py lines 214-225),
reading a profile's configuration, the retry-wrapped `wg-quick up/down`
commands, `shutil.which` resolution and the configuration-directory check.
External state is taken as unchanged while one public operation runs, which
matches the source: inside `activate_profile` every status query happens
before any mutation. -/
structure World where
  profiles : List (List Char)
  wgShow : Bool × List Char
  fsExists : List Char → Bool
  readConf : List Char → ConfRead
  wgQuickUp : List Char → Bool × List Char
  wgQuickDown : List Char → Bool × List Char
  whichOk : List Char → Bool
  configDirExists : Bool

/-- The default profile list (core.py line 68). -/
def defaultProfiles : List (List Char) := ["App".toList, "bomBox".toList, "usa".toList]

/-- `WireGuardManager.check_profile_exists` (core.py lines 199-225): names
in the configured list are assumed to exist without touching the
filesystem; other names are checked via the config file, with
`PermissionError` and other exceptions mapped to `False` (folded into the
`fsExists` oracle). -/
def check_profile_exists (w : World) (profile_name : List Char) : Bool :=
  if w.profiles.contains profile_name then true else w.fsExists profile_name

/-- `WireGuardManager.validate_profile` (core.py lines 227-260). -/
def validate_profile (w : World) (profile_name : List Char) : Bool × List Char :=
  if !check_profile_exists w profile_name then
    (false, "Профиль ".toList ++ profile_name ++ " не существует".toList)
  else
    match w.readConf profile_name with
    | ConfRead.ok content =>
      if !containsL content "[Interface]".toList then
        (false, "Отсутствует секция [Interface]".toList)
      else (true, "OK".toList)
    | ConfRead.permOrMissing =>
      if w.profiles.contains profile_name then
        (true, "Стандартный профиль, проверка не требуется".toList)
      else (true, "Проверка прав доступа не удалась, предполагаем валидность".toList)
    | ConfRead.err m => (false, "Ошибка чтения файла: ".toList ++ m)

/-- `line.split(':')[1].strip()` of `get_active_profile` (core.py line 284):
the piece between the first and second colon, whitespace-trimmed.  The
guard `'interface:' in line.lower()` guarantees the colon split has a
second piece, so the `headD` default is never used. -/
def ifaceToken (line : List Char) : List Char :=
  pyStrip (((splitP (fun c => c == ':') line).drop 1).headD [])

/-- The line-scanning loop of `WireGuardManager.get_active_profile`
(core.py lines 280-292): first line containing `interface:`
(case-insensitively) whose interface token has some configured profile
name as a case-insensitive substring; inner loop returns the first such
profile, otherwise scanning continues with the next line. -/
def findActive (profiles : List (List Char)) : List (List Char) → Option (List Char)
  | [] => none
  | line :: rest =>
    if containsL (pyLower line) "interface:".toList then
      match profiles.find? (fun p => containsL (pyLower (ifaceToken line)) (pyLower p)) with
      | some p => some p
      | none => findActive profiles rest
    else findActive profiles rest

/-- The pure part of `get_active_profile` applied to a successful `wg show`
output: `output.strip().split('\n')` then the scanning loop. -/
def parse_active (profiles : List (List Char)) (output : List Char) : Option (List Char) :=
  findActive profiles (splitP (fun c => c == '\n') (pyStrip output))

/-- `WireGuardManager.get_active_profile` (core.py lines 262-292): on a
failed status query return `None`; otherwise parse the output. -/
def get_active_profile (w : World) : Option (List Char) :=
  if w.wgShow.1 then parse_active w.profiles w.wgShow.2 else none

/-- `WireGuardManager.get_profile_status` (core.py lines 294-312). -/
def get_profile_status (w : World) (profile_name : List Char) : ProfileStatus :=
  if get_active_profile w = some profile_name then ProfileStatus.active
  else if !check_profile_exists w profile_name then ProfileStatus.error
  else ProfileStatus.inactive

/-- The transfer-statistics extraction of `get_all_profiles_info`
(core.py lines 343-358) for one `wg show` output: fold over the lines,
and on each line containing `transfer:` (case-insensitively) split the
text after the first colon on commas; when there are at least two pieces,
the stripped first piece containing `received` overwrites `transfer_rx`
with `_parse_transfer` of its first whitespace-separated word, and the
stripped second piece containing `sent` does the same for `transfer_tx`.
Fields start at the `ProfileInfo` defaults of 0. -/
def parseTransferCounters (output : List Char) : ℤ × ℤ :=
  (splitP (fun c => c == '\n') (pyStrip output)).foldl (fun acc line =>
    if containsL (pyLower line) "transfer:".toList then
      let parts := splitP (fun c => c == ',')
        (pyStrip (((splitP (fun c => c == ':') line).drop 1).headD []))
      if 2 ≤ parts.length then
        let rx_part := pyStrip (parts.headD [])
        let tx_part := pyStrip ((parts.drop 1).headD [])
        let acc1 :=
          if containsL rx_part "received".toList then
            (parse_transfer ((pySplitWS rx_part).headD []), acc.2)
          else acc
        if containsL tx_part "sent".toList then
          (acc1.1, parse_transfer ((pySplitWS tx_part).headD []))
        else acc1
      else acc
    else acc) (0, 0)

/-- The early-exit test of `_run_command_with_retry` (core.py lines 186-190),
exactly as written: the Russian timeout marker is searched case-sensitively
in the raw output, the other three markers in the lowered output — including
the capitalized literal `Permission denied`, which a lowered string can
never contain. -/
def nonRetryableBreak (output : List Char) : Bool :=
  containsL output "Таймаут".toList ||
  containsL (pyLower output) "Permission denied".toList ||
  containsL (pyLower output) "not found".toList ||
  containsL (pyLower output) "authentication canceled".toList

/-- The retry loop of `_run_command_with_retry` (core.py lines 172-197).
`runner k` is the outcome of the `k`-th underlying `_run_command` call
(0-based); the second component of the result counts how many calls were
made.  `calls` starts at 0 and `fuel` at `max_retries`. -/
def runRetryFrom (runner : ℕ → Bool × List Char) :
    ℕ → ℕ → List Char → (Bool × List Char) × ℕ
  | calls, 0, lastError => ((false, lastError), calls)
  | calls, fuel + 1, _ =>
    let r := runner calls
    if r.1 then ((true, r.2), calls + 1)
    else if nonRetryableBreak r.2 then ((false, r.2), calls + 1)
    else runRetryFrom runner (calls + 1) fuel r.2

/-- `WireGuardManager._run_command_with_retry` (core.py lines 156-197),
instrumented with the number of underlying invocations. -/
def run_command_with_retry (runner : ℕ → Bool × List Char) (max_retries : ℕ) :
    (Bool × List Char) × ℕ :=
  runRetryFrom runner 0 max_retries []

/-- The hardcoded deactivation order of `turn_off_all` (core.py line 396). -/
def defaultOffOrder : List (List Char) := ["App".toList, "bomBox".toList, "usa".toList]

/-- `WireGuardManager.turn_off_all` (core.py lines 386-411), instrumented
with the list of profiles whose deactivation was attempted, in order. -/
def turn_off_all (w : World) : (Bool × List Char) × List (List Char) :=
  let ops := defaultOffOrder.map (fun p => (p, w.wgQuickDown p))
  let failed := ops.filter (fun op => !op.2.1)
  if !failed.isEmpty then
    ((false, "Ошибки при отключении: ".toList ++
        List.intercalate ", ".toList
          (failed.map (fun op => op.1 ++ ": ".toList ++ op.2.2))),
      defaultOffOrder)
  else ((true, "Все профили отключены".toList), defaultOffOrder)

/-- One external command invocation made by `activate_profile`:
a `wg show` status query, or `wg-quick up/down <profile>`. -/
inductive WCmd
  | query
  | up (p : List Char)
  | down (p : List Char)
deriving DecidableEq

/-- `WireGuardManager.activate_profile` (core.py lines 413-465),
instrumented with the trace of external commands it issues, in order:
existence check (no command), validation (no command), a `wg show` for the
target's status, one `wg show` per other configured profile, `wg-quick
down` for each other profile found active (failures logged, not fatal),
then `wg-quick up` whose verdict is returned verbatim. -/
def activate_profile (w : World) (profile_name : List Char) :
    (Bool × List Char) × List WCmd :=
  if !check_profile_exists w profile_name then
    ((false, "Профиль ".toList ++ profile_name ++ " не существует".toList), [])
  else
    let v := validate_profile w profile_name
    if !v.1 then
      ((false, "Профиль ".toList ++ profile_name ++ " невалиден: ".toList ++ v.2), [])
    else if get_profile_status w profile_name = ProfileStatus.active then
      ((true, "Профиль ".toList ++ profile_name ++ " уже активен".toList), [WCmd.query])
    else
      let others := w.profiles.filter (fun p => !(p == profile_name))
      let toDeact := others.filter
        (fun p => get_profile_status w p == ProfileStatus.active)
      (((w.wgQuickUp profile_name).1, (w.wgQuickUp profile_name).2),
        [WCmd.query] ++ others.map (fun _ => WCmd.query)
          ++ toDeact.map WCmd.down ++ [WCmd.up profile_name])

/-- The required external executables (core.py line 504). -/
def requiredCommands : List (List Char) := ["wg".toList, "wg-quick".toList, "pkexec".toList]

/-- The `checks` list assembled by `check_system_ready`
(core.py lines 501-520): missing commands, missing configuration directory
(an unreadable one is deliberately not reported), and the
no-profile-found entry guarded by `any(check_profile_exists ...)`. -/
def systemChecks (w : World) : List (List Char) :=
  ((requiredCommands.filter (fun c => !w.whichOk c)).map
      (fun c => "Команда ".toList ++ c ++ " не найдена".toList))
    ++ (if !w.configDirExists then
          ["Директория конфигураций не существует: /etc/wireguard".toList] else [])
    ++ (if !(w.profiles.any (fun p => check_profile_exists w p)) then
          ["Не найден ни один профиль WireGuard".toList] else [])

/-- `WireGuardManager.check_system_ready` (core.py lines 494-528). -/
def check_system_ready (w : World) : Bool × List Char :=
  if !(systemChecks w).isEmpty then
    (false, List.intercalate "; ".toList (systemChecks w))
  else (true, "Система готова".toList)

/-- A benign concrete environment used for concrete instantiations. -/
def wBase : World where
  profiles := defaultProfiles
  wgShow := (true, [])
  fsExists := fun _ => false
  readConf := fun _ => ConfRead.permOrMissing
  wgQuickUp := fun _ => (true, [])
  wgQuickDown := fun _ => (true, "OK".toList)
  whichOk := fun _ => true
  configDirExists := true

/-- The active-profile derivation written from the specification's words:
scan the stripped output's lines in order with `findSome?`; on a line
containing the interface marker case-insensitively, return the first
configured profile name whose lowercased form is a substring of the
lowercased, whitespace-trimmed token after the first colon; a marker line
with no matching profile lets the scan continue; no match anywhere is
`none`. -/
def parseActiveInterfaceSpec (profiles : List (List Char)) (output : List Char) :
    Option (List Char) :=
  (splitP (fun c => c == '\n') (pyStrip output)).findSome? (fun line =>
    if containsL (pyLower line) "interface:".toList then
      profiles.find? (fun p => containsL (pyLower (ifaceToken line)) (pyLower p))
    else none)

lemma findActive_eq_findSome (profiles lines : List (List Char)) :
    findActive profiles lines = lines.findSome? (fun line =>
      if containsL (pyLower line) "interface:".toList then
        profiles.find? (fun p => containsL (pyLower (ifaceToken line)) (pyLower p))
      else none) := by
  induction lines with
  | nil => rfl
  | cons line rest ih =>
    rw [List.findSome?_cons]
    simp only [findActive]
    by_cases h : containsL (pyLower line) "interface:".toList = true
    · rw [if_pos h, if_pos h]
      cases hf : profiles.find? (fun p => containsL (pyLower (ifaceToken line)) (pyLower p)) <;>
        simp [hf, ih]
    · rw [if_neg h, if_neg h]
      exact ih

lemma findActive_mem {profiles lines : List (List Char)} {p : List Char}
    (h : findActive profiles lines = some p) : p ∈ profiles := by
  induction lines with
  | nil => simp [findActive] at h
  | cons line rest ih =>
    simp only [findActive] at h
    split at h
    · split at h
      · rename_i hf
        exact List.mem_of_find?_eq_some (Option.some_inj.mp h ▸ hf)
      · exact ih h
    · exact ih h

lemma active_profile_mem {w : World} {p : List Char}
    (h : get_active_profile w = some p) : p ∈ w.profiles := by
  unfold get_active_profile at h
  split at h
  · exact findActive_mem h
  · exact absurd h (by simp)

lemma check_exists_of_mem (w : World) {n : List Char} (h : n ∈ w.profiles) :
    check_profile_exists w n = true := by
  unfold check_profile_exists
  simp [h]

lemma check_exists_eq_false (w : World) {n : List Char} (h1 : n ∉ w.profiles)
    (h2 : w.fsExists n = false) : check_profile_exists w n = false := by
  unfold check_profile_exists
  simp [h1, h2]

lemma profiles_any_exists (w : World) (h : w.profiles ≠ []) :
    w.profiles.any (fun p => check_profile_exists w p) = true := by
  cases hp : w.profiles with
  | nil => exact absurd hp h
  | cons a l =>
    rw [List.any_eq_true]
    exact ⟨a, by simp [hp], check_exists_of_mem w (by simp [hp])⟩

/-- C5: for every raw status output and configured profile list, the
active-profile derivation scans lines in order for one containing the
interface marker case-insensitively, takes the (trimmed) token after the
first colon, and returns the first configured profile whose lowercased
form is a substring of the lowercased token, else none; in particular
`interface: wg0` derives none for the default profiles and
`interface: wg-bombox` derives `bomBox`. -/
theorem active_profile_derivation_spec :
    (∀ (profiles : List (List Char)) (output : List Char),
      parse_active profiles output = parseActiveInterfaceSpec profiles output)
    ∧ parse_active defaultProfiles "interface: wg0\npublic key: xxx".toList = none
    ∧ parse_active defaultProfiles "interface: wg-bombox\npublic key: xxx".toList
        = some "bomBox".toList := by
  refine ⟨fun profiles output => ?_, by decide, by decide⟩
  unfold parse_active parseActiveInterfaceSpec
  exact findActive_eq_findSome profiles (splitP (fun c => c == '\n') (pyStrip output))

/-- C6: `get_profile_status` is Active exactly when the freshly derived
active profile equals the queried name; otherwise Error exactly when the
existence check fails; otherwise Inactive — existence is consulted only
when the name is not the derived active profile. -/
theorem get_profile_status_spec (w : World) (profile_name : List Char) :
    (get_profile_status w profile_name = ProfileStatus.active
        ↔ get_active_profile w = some profile_name)
    ∧ (get_profile_status w profile_name = ProfileStatus.error
        ↔ get_active_profile w ≠ some profile_name
            ∧ check_profile_exists w profile_name = false)
    ∧ (get_profile_status w profile_name = ProfileStatus.inactive
        ↔ get_active_profile w ≠ some profile_name
            ∧ check_profile_exists w profile_name = true) := by
  unfold get_profile_status
  by_cases h : get_active_profile w = some profile_name
  · simp [h]
  · cases hc : check_profile_exists w profile_name <;> simp [h, hc]

/-- C6 witness: concrete instantiation of `get_profile_status_spec`. -/
theorem get_profile_status_spec_witness :
    get_profile_status wBase "App".toList = ProfileStatus.inactive :=
  (get_profile_status_spec wBase "App".toList).2.2.mpr (by decide)

/-- C10: whenever the external status query fails, `get_active_profile`
returns none, and every configured profile consequently reports
Inactive — never Error or Unknown. -/
theorem status_failure_reports_inactive (w : World) (hfail : w.wgShow.1 = false) :
    get_active_profile w = none
    ∧ ∀ profile_name ∈ w.profiles,
        get_profile_status w profile_name = ProfileStatus.inactive := by
  have hg : get_active_profile w = none := by
    unfold get_active_profile
    simp [hfail]
  refine ⟨hg, fun profile_name hc => ?_⟩
  unfold get_profile_status
  rw [hg, check_exists_of_mem w hc]
  simp

/-- A world whose status query fails. -/
def wShowFail : World := { wBase with wgShow := (false, "Ошибка выполнения".toList) }

/-- C10 witness: a world whose status query fails. -/
theorem status_failure_reports_inactive_witness :
    get_active_profile wShowFail = none
    ∧ get_profile_status wShowFail "App".toList = ProfileStatus.inactive := by
  have h := status_failure_reports_inactive wShowFail (by decide)
  exact ⟨h.1, h.2 "App".toList (by decide)⟩

/-- C8: activating a name outside the configured list whose config file
does not exist fails with a "does not exist" message, with no external
command issued. -/
theorem activate_nonexistent_no_command (w : World) (profile_name : List Char)
    (h1 : profile_name ∉ w.profiles)
    (h2 : w.fsExists profile_name = false) :
    activate_profile w profile_name =
      ((false, "Профиль ".toList ++ profile_name ++ " не существует".toList), []) := by
  unfold activate_profile
  rw [check_exists_eq_false w h1 h2]
  simp

/-- C8 witness: concrete nonexistent profile. -/
theorem activate_nonexistent_no_command_witness :
    activate_profile wBase "zzz".toList =
      ((false, "Профиль ".toList ++ "zzz".toList ++ " не существует".toList), []) :=
  activate_nonexistent_no_command wBase "zzz".toList (by decide) (by decide)

/-- C9: every name in the configured list exists unconditionally (no
filesystem access), the "no profile found" entry of `check_system_ready`
is unreachable for a non-empty configured list, and `get_profile_status`
never reports Error for a configured name. -/
theorem configured_profiles_always_exist :
    (∀ (w : World) (profile_name : List Char),
      profile_name ∈ w.profiles → check_profile_exists w profile_name = true)
    ∧ (∀ w : World, w.profiles ≠ [] →
        "Не найден ни один профиль WireGuard".toList ∉ systemChecks w)
    ∧ (∀ (w : World) (profile_name : List Char),
        profile_name ∈ w.profiles →
          get_profile_status w profile_name ≠ ProfileStatus.error) := by
  refine ⟨fun w n h => check_exists_of_mem w h, fun w h => ?_, fun w n h => ?_⟩
  · unfold systemChecks
    rw [profiles_any_exists w h]
    intro hmem
    rw [List.mem_append] at hmem
    rcases hmem with hmem | hprof
    · rw [List.mem_append] at hmem
      rcases hmem with hcmd | hdir
      · obtain ⟨c, hc, heq⟩ := List.mem_map.mp hcmd
        have hc2 : c ∈ requiredCommands := (List.mem_filter.mp hc).1
        simp only [requiredCommands, List.mem_cons, List.not_mem_nil, or_false] at hc2
        rcases hc2 with rfl | rfl | rfl <;> exact absurd heq (by decide)
      · split at hdir
        · simp only [List.mem_singleton] at hdir
          exact absurd hdir (by decide)
        · simp at hdir
    · simp at hprof
  · unfold get_profile_status
    by_cases ha : get_active_profile w = some n
    · simp [ha]
    · rw [check_exists_of_mem w h]
      simp [ha]

/-- C9 witness: concrete instantiation of `configured_profiles_always_exist`. -/
theorem configured_profiles_always_exist_witness :
    check_profile_exists wBase "App".toList = true
    ∧ "Не найден ни один профиль WireGuard".toList ∉ systemChecks wBase
    ∧ get_profile_status wBase "App".toList ≠ ProfileStatus.error := by
  have h := configured_profiles_always_exist
  exact ⟨h.1 wBase "App".toList (by decide), h.2.1 wBase (by decide),
    h.2.2 wBase "App".toList (by decide)⟩

/-- A world configured with a single non-default profile name. -/
def wOther : World := { wBase with profiles := ["x".toList] }

/-- C1 counterexample: with the configured list `["x"]`, `turn_off_all`
never attempts to deactivate `x` — it works through the hardcoded
`App, bomBox, usa` order instead, refuting the claim that every profile of
the configured list is attempted. -/
theorem turn_off_all_ignores_configured_list :
    ¬ ("x".toList ∈ (turn_off_all wOther).2) := by decide

/-- C1 (amended): `turn_off_all` attempts deactivation of exactly the fixed
default profiles App, bomBox, usa, in that order, regardless of the
configured list; success iff every one of those deactivations succeeded;
the failure message enumerates each failed profile with its reason;
successes are not rolled back and later profiles are still attempted (the
attempt trace is always the whole fixed list). -/
theorem turn_off_all_fixed_order_spec (w : World) :
    (turn_off_all w).2 = defaultOffOrder
    ∧ ((turn_off_all w).1.1 = true ↔ ∀ p ∈ defaultOffOrder, (w.wgQuickDown p).1 = true)
    ∧ ((turn_off_all w).1.1 = true →
        (turn_off_all w).1.2 = "Все профили отключены".toList)
    ∧ ((turn_off_all w).1.1 = false →
        (turn_off_all w).1.2 = "Ошибки при отключении: ".toList ++
          List.intercalate ", ".toList
            (((defaultOffOrder.map (fun p => (p, w.wgQuickDown p))).filter
                (fun op => !op.2.1)).map
              (fun op => op.1 ++ ": ".toList ++ op.2.2))) := by
  cases hf : ((defaultOffOrder.map (fun p => (p, w.wgQuickDown p))).filter
      (fun op => !op.2.1)).isEmpty with
  | true =>
    have hall : ∀ p ∈ defaultOffOrder, (w.wgQuickDown p).1 = true := by
      rw [List.isEmpty_iff, List.filter_eq_nil_iff] at hf
      intro p hp
      have := hf (p, w.wgQuickDown p) (List.mem_map.mpr ⟨p, hp, rfl⟩)
      simpa using this
    have h1 : turn_off_all w = ((true, "Все профили отключены".toList), defaultOffOrder) := by
      simp [turn_off_all, hf]
    rw [h1]
    exact ⟨rfl, ⟨fun _ => hall, fun _ => rfl⟩, fun _ => rfl, fun hc => by simp at hc⟩
  | false =>
    have hnall : ¬ ∀ p ∈ defaultOffOrder, (w.wgQuickDown p).1 = true := by
      intro hall
      have hnil : ((defaultOffOrder.map (fun p => (p, w.wgQuickDown p))).filter
          (fun op => !op.2.1)) = [] := by
        rw [List.filter_eq_nil_iff]
        intro op hm
        obtain ⟨q, hq, heq⟩ := List.mem_map.mp hm
        subst heq
        simp [hall q hq]
      rw [hnil] at hf
      simp at hf
    have h1 : turn_off_all w = ((false, "Ошибки при отключении: ".toList ++
        List.intercalate ", ".toList
          (((defaultOffOrder.map (fun p => (p, w.wgQuickDown p))).filter
              (fun op => !op.2.1)).map
            (fun op => op.1 ++ ": ".toList ++ op.2.2))), defaultOffOrder) := by
      simp [turn_off_all, hf]
    rw [h1]
    exact ⟨rfl, ⟨fun hc => by simp at hc, fun hall => absurd hall hnall⟩,
      fun hc => by simp at hc, fun _ => rfl⟩

/-- C1 witness: concrete instantiation of `turn_off_all_fixed_order_spec`
for the all-success world. -/
theorem turn_off_all_fixed_order_spec_witness :
    (turn_off_all wBase).1.1 = true
    ∧ (turn_off_all wBase).1.2 = "Все профили отключены".toList
    ∧ (turn_off_all wBase).2 = defaultOffOrder := by
  have h := turn_off_all_fixed_order_spec wBase
  have hs : (turn_off_all wBase).1.1 = true := h.2.1.mpr (by decide)
  exact ⟨hs, h.2.2.1 hs, h.1⟩

/-- A world where profile App is reported active by the tool but its
readable config file lacks the `[Interface]` marker. -/
def wActiveBad : World :=
  { wBase with
    wgShow := (true, "interface: wg-app".toList)
    readConf := fun _ => ConfRead.ok "x".toList }

/-- C7 counterexample: a profile can be freshly derived as Active and yet
`activate_profile` returns failure, because validation runs before the
already-active check and rejects a readable config without `[Interface]`. -/
theorem activate_already_active_counterexample :
    get_profile_status wActiveBad "App".toList = ProfileStatus.active
    ∧ (activate_profile wActiveBad "App".toList).1.1 = false := by decide

/-- C7 (amended): for a profile that passes validation and whose freshly
derived status is Active, `activate_profile` returns success with the
"already active" message and issues only the one status query — no
`wg-quick up`, and no deactivation of any other profile. -/
theorem activate_already_active_noop (w : World) (profile_name : List Char)
    (hv : (validate_profile w profile_name).1 = true)
    (ha : get_profile_status w profile_name = ProfileStatus.active) :
    activate_profile w profile_name =
      ((true, "Профиль ".toList ++ profile_name ++ " уже активен".toList), [WCmd.query]) := by
  have hact : get_active_profile w = some profile_name := by
    by_contra hne
    unfold get_profile_status at ha
    rw [if_neg hne] at ha
    split at ha <;> simp_all
  have hex : check_profile_exists w profile_name = true :=
    check_exists_of_mem w (active_profile_mem hact)
  unfold activate_profile
  rw [hex]
  simp [hv, ha]

/-- A world where profile App is reported active and its config is valid. -/
def wActiveOk : World :=
  { wBase with
    wgShow := (true, "interface: wg-app".toList)
    readConf := fun _ => ConfRead.ok "[Interface]".toList }

/-- C7 witness: concrete instantiation of `activate_already_active_noop`. -/
theorem activate_already_active_noop_witness :
    (validate_profile wActiveOk "App".toList).1 = true
    ∧ get_profile_status wActiveOk "App".toList = ProfileStatus.active
    ∧ activate_profile wActiveOk "App".toList =
        ((true, "Профиль ".toList ++ "App".toList ++ " уже активен".toList), [WCmd.query]) :=
  ⟨by decide, by decide, activate_already_active_noop wActiveOk "App".toList (by decide) (by decide)⟩

/-- C2: evaluating the transfer-counter extraction on the very line format
documented in the source (`transfer: 1.23 MiB received, 456.78 KiB sent`)
yields (1, 456): `rx_part.split()[0]` keeps only the bare number, dropping
the unit before `_parse_transfer` ever sees it, so the claimed
floor(1.23·1024²) = 1289748 and floor(456.78·1024) = 467742 are not
produced. -/
theorem transfer_counters_drop_units :
    parseTransferCounters "transfer: 1.23 MiB received, 456.78 KiB sent".toList = (1, 456)
    ∧ ¬ (parseTransferCounters "transfer: 1.23 MiB received, 456.78 KiB sent".toList
          = (1289748, 467742)) := by decide

lemma isDigitCh_le {c : Char} (h : isDigitCh c = true) : 48 ≤ c.toNat ∧ c.toNat ≤ 57 := by
  unfold isDigitCh at h
  simp only [Bool.and_eq_true, decide_eq_true_eq] at h
  exact h

lemma pyLowerChar_fix {c : Char} (h : c.toNat < 65 ∨ 90 < c.toNat) : pyLowerChar c = c := by
  unfold pyLowerChar
  rw [if_neg (by omega)]

lemma pyLower_fix {s : List Char} (h : ∀ c ∈ s, c.toNat < 65 ∨ 90 < c.toNat) :
    pyLower s = s := by
  induction s with
  | nil => rfl
  | cons a t ih =>
    unfold pyLower at *
    simp only [List.map_cons]
    rw [pyLowerChar_fix (h a (by simp)), ih (fun c hc => h c (by simp [hc]))]

lemma pyLower_append (a b : List Char) : pyLower (a ++ b) = pyLower a ++ pyLower b :=
  List.map_append pyLowerChar a b

lemma numChar_bound {c : Char} (h : isDigitCh c = true ∨ c = '.') : c.toNat < 65 := by
  rcases h with h | rfl
  · have := (isDigitCh_le h).2
    omega
  · decide

lemma numChar_not_ws {c : Char} (h : isDigitCh c = true ∨ c = '.') : isWS c = false := by
  rcases h with h | rfl
  · by_contra hws
    rw [Bool.not_eq_false] at hws
    unfold isWS at hws
    simp only [Bool.or_eq_true, decide_eq_true_eq] at hws
    rcases hws with ((((rfl | rfl) | rfl) | rfl) | rfl) | rfl <;> exact absurd h (by decide)
  · decide

lemma numChar_ne {c : Char} (h : isDigitCh c = true ∨ c = '.') {d : Char}
    (hd : 96 < d.toNat) : c ≠ d := by
  intro heq
  subst heq
  rcases h with h | h
  · have := (isDigitCh_le h).2
    omega
  · rw [h] at hd
    exact absurd hd (by decide)

lemma space_ne {c : Char} (h : c = ' ') {d : Char} (hd : 96 < d.toNat) : c ≠ d := by
  subst h
  intro h2
  rw [← h2] at hd
  exact absurd hd (by decide)

lemma numsp_ne {s sp : List Char} (hs : ∀ ch ∈ s, isDigitCh ch = true ∨ ch = '.')
    (hsp : ∀ ch ∈ sp, ch = ' ') {d : Char} (hd : 96 < d.toNat) :
    ∀ x ∈ s ++ sp, x ≠ d := by
  intro x hx
  rcases List.mem_append.mp hx with hx | hx
  · exact numChar_ne (hs x hx) hd
  · exact space_ne (hsp x hx) hd

lemma token_missing {s sp uL : List Char} {d : Char}
    (hs : ∀ ch ∈ s, isDigitCh ch = true ∨ ch = '.')
    (hsp : ∀ ch ∈ sp, ch = ' ')
    (hd : 96 < d.toNat) (hu : ∀ ch ∈ uL, ch ≠ d) :
    ∀ x ∈ s ++ sp ++ uL, x ≠ d := by
  intro x hx
  rcases List.mem_append.mp hx with hx | hx
  · exact numsp_ne hs hsp hd x hx
  · exact hu x hx

lemma isPrefixOfIff {l₁ l₂ : List Char} : l₁.isPrefixOf l₂ = true ↔ l₁ <+: l₂ :=
  List.isPrefixOf_iff_prefix

lemma not_containsL {l pat : List Char} {c : Char} (hc : c ∈ pat) (h : ∀ x ∈ l, x ≠ c) :
    containsL l pat = false := by
  induction l with
  | nil =>
    unfold containsL
    cases pat with
    | nil => exact absurd hc (List.not_mem_nil c)
    | cons a t => rfl
  | cons a t ih =>
    unfold containsL
    rw [ih (fun x hx => h x (List.mem_cons_of_mem a hx)), Bool.or_false]
    cases hp : pat.isPrefixOf (a :: t) with
    | false => rfl
    | true =>
      have hsub := (isPrefixOfIff.mp hp).subset hc
      exact absurd rfl (h c hsub)

lemma containsL_suffix (l pat : List Char) : containsL (l ++ pat) pat = true := by
  induction l with
  | nil =>
    rw [List.nil_append]
    cases pat with
    | nil => rfl
    | cons a t =>
      simp only [containsL]
      rw [isPrefixOfIff.mpr (List.prefix_refl (a :: t)), Bool.true_or]
  | cons a t ih =>
    rw [List.cons_append]
    simp only [containsL]
    rw [ih, Bool.or_true]

lemma removeAllGo_nil (pat : List Char) (fuel : ℕ) : removeAllGo pat fuel [] = [] := by
  cases fuel <;> rfl

lemma removeAllGo_append (c : Char) (cs : List Char) (num : List Char) :
    ∀ fuel : ℕ, num.length + cs.length + 1 ≤ fuel → (∀ x ∈ num, x ≠ c) →
      removeAllGo (c :: cs) fuel (num ++ (c :: cs)) = num := by
  induction num with
  | nil =>
    intro fuel hf h
    cases fuel with
    | zero => omega
    | succ f =>
      rw [List.nil_append]
      simp only [removeAllGo]
      rw [isPrefixOfIff.mpr (List.prefix_refl (c :: cs))]
      simp only [List.isEmpty_cons, Bool.not_false, Bool.and_self, if_true, List.drop_length]
      exact removeAllGo_nil _ _
  | cons a num' ih =>
    intro fuel hf h
    cases fuel with
    | zero => omega
    | succ f =>
      rw [List.cons_append]
      simp only [removeAllGo]
      have hne : (c == a) = false := beq_eq_false_iff_ne.mpr (Ne.symm (h a (by simp)))
      rw [show (c :: cs).isPrefixOf (a :: (num' ++ (c :: cs)))
            = (c == a && cs.isPrefixOf (num' ++ (c :: cs))) from rfl, hne]
      simp only [Bool.false_and, Bool.false_eq_true, if_false]
      rw [ih f (by simp at hf; omega) (fun x hx => h x (by simp [hx]))]

lemma removeAll_append (c : Char) (cs num : List Char) (h : ∀ x ∈ num, x ≠ c) :
    removeAll (c :: cs) (num ++ (c :: cs)) = num := by
  unfold removeAll
  exact removeAllGo_append c cs num _ (by simp [List.length_append]; omega) h

lemma dropWhile_eq_self {p : Char → Bool} {s : List Char} (h : ∀ c ∈ s, p c = false) :
    s.dropWhile p = s := by
  cases s with
  | nil => rfl
  | cons a t => simp [List.dropWhile_cons, h a (List.mem_cons_self a t)]

lemma dropWhile_append_all {p : Char → Bool} {l₁ l₂ : List Char}
    (h : ∀ c ∈ l₁, p c = true) : (l₁ ++ l₂).dropWhile p = l₂.dropWhile p := by
  induction l₁ with
  | nil => rfl
  | cons a t ih =>
    rw [List.cons_append, List.dropWhile_cons, h a (by simp), if_pos rfl]
    exact ih (fun c hc => h c (by simp [hc]))

lemma pyStrip_no_ws {s : List Char} (h : ∀ c ∈ s, isWS c = false) : pyStrip s = s := by
  unfold pyStrip
  rw [dropWhile_eq_self h,
    dropWhile_eq_self (fun c hc => h c (List.mem_reverse.mp hc)), List.reverse_reverse]

lemma pyStrip_append_ws {s sp : List Char} (hs : ∀ c ∈ s, isWS c = false)
    (hsp : ∀ c ∈ sp, isWS c = true) : pyStrip (s ++ sp) = s := by
  cases s with
  | nil =>
    rw [List.nil_append]
    unfold pyStrip
    have h1 : sp.dropWhile isWS = [] := by
      have := @dropWhile_append_all isWS sp [] hsp
      simpa using this
    rw [h1]
    rfl
  | cons a t =>
    unfold pyStrip
    rw [List.cons_append, List.dropWhile_cons, hs a (by simp)]
    simp only [Bool.false_eq_true, if_false]
    rw [show (a :: (t ++ sp)) = (a :: t) ++ sp from rfl, List.reverse_append,
      dropWhile_append_all (fun c hc => hsp c (List.mem_reverse.mp hc)),
      dropWhile_eq_self (fun c hc => hs c (List.mem_reverse.mp hc)), List.reverse_reverse]

lemma pyIntMul_eq_floor (x : PyFloat) (h : x.neg = false) (f : ℕ) :
    pyIntMul x f = ⌊x.toRat * (f : ℚ)⌋ := by
  have h1 : x.toRat * (f : ℚ) = ((x.mant * f : ℕ) : ℚ) / ((10 ^ x.scale : ℕ) : ℚ) := by
    unfold PyFloat.toRat
    rw [h]
    push_cast
    ring
  rw [h1, Rat.floor_natCast_div_natCast]
  unfold pyIntMul
  rw [h]
  simp [Int.ofNat_ediv]

lemma parse_transfer_eval (tok s sp : List Char) (c : Char) (cs : List Char)
    (factor : ℕ) (x : PyFloat)
    (hlow : pyLower tok = s ++ sp ++ (c :: cs))
    (hs : ∀ ch ∈ s, isDigitCh ch = true ∨ ch = '.')
    (hsp : ∀ ch ∈ sp, ch = ' ')
    (hbranch : transferBranch (s ++ sp ++ (c :: cs))
      = (removeAll (c :: cs) (s ++ sp ++ (c :: cs)), factor))
    (hc : ∀ ch ∈ s ++ sp, ch ≠ c)
    (hx : parseFloatD s = some x) :
    parse_transfer tok = pyIntMul x factor := by
  simp only [parse_transfer]
  rw [hlow, hbranch, removeAll_append c cs (s ++ sp) hc,
    pyStrip_append_ws (fun ch hch => numChar_not_ws (hs ch hch))
      (fun ch hch => by rw [hsp ch hch]; decide), hx]

/-- The recognized unit suffixes with their byte factors, as the claim
states them. -/
def unitTable : List (List Char × ℕ) :=
  [("KiB".toList, 1024), ("MiB".toList, 1024 * 1024), ("GiB".toList, 1024 * 1024 * 1024),
   ("KB".toList, 1000), ("MB".toList, 1000 * 1000), ("GB".toList, 1000 * 1000 * 1000)]

/-- C3 counterexample: `_parse_transfer` maps `2.3 MiB` to
floor(2.3 · 1024²) = 2411724, not the 2412838 stated by the claim (the
repository's own test asserts `int(2.3 * 1024 * 1024)`). -/
theorem parse_transfer_mib_counterexample :
    parse_transfer "2.3 MiB".toList = 2411724
    ∧ parse_transfer "2.3 MiB".toList ≠ 2412838 := by decide

/-- C3 (amended): `_parse_transfer` returns floor(number · 1024^k) for
`<number><KiB|MiB|GiB>` tokens (an optional run of spaces before the unit
is tolerated), floor(number · 1000^k) for `<KB|MB|GB>`, floor(number) for
a plain numeric token, and 0 whenever the numeric part fails to parse;
in particular `1.5 KiB` gives 1536, `2.3 MiB` gives 2411724 (not the
2412838 of the original claim), `0.5 GiB` gives 536870912, `123` gives
123 and `invalid` gives 0. -/
theorem parse_transfer_spec :
    (∀ u ∈ unitTable, ∀ (s sp : List Char) (x : PyFloat),
      (∀ ch ∈ s, isDigitCh ch = true ∨ ch = '.') →
      (∀ ch ∈ sp, ch = ' ') →
      parseFloatD s = some x → x.neg = false →
      parse_transfer (s ++ sp ++ u.1) = ⌊x.toRat * (u.2 : ℚ)⌋)
    ∧ (∀ (s : List Char) (x : PyFloat),
        (∀ ch ∈ s, isDigitCh ch = true ∨ ch = '.') →
        parseFloatD s = some x → x.neg = false →
        parse_transfer s = ⌊x.toRat⌋)
    ∧ (∀ s : List Char,
        parseFloatD (pyStrip (transferBranch (pyLower s)).1) = none → parse_transfer s = 0)
    ∧ parse_transfer "1.5 KiB".toList = 1536
    ∧ parse_transfer "2.3 MiB".toList = 2411724
    ∧ parse_transfer "0.5 GiB".toList = 536870912
    ∧ parse_transfer "123".toList = 123
    ∧ parse_transfer "invalid".toList = 0 := by
  refine ⟨?_, ?_, ?_, by decide, by decide, by decide, by decide, by decide⟩
  · intro u hu s sp x hs hsp hx hneg
    have hbs : ∀ c ∈ s, c.toNat < 65 ∨ 90 < c.toNat :=
      fun c hc => Or.inl (numChar_bound (hs c hc))
    have hbsp : ∀ c ∈ sp, c.toNat < 65 ∨ 90 < c.toNat :=
      fun c hc => Or.inl (by rw [hsp c hc]; decide)
    simp only [unitTable, List.mem_cons, List.not_mem_nil, or_false] at hu
    rcases hu with rfl | rfl | rfl | rfl | rfl | rfl
    · have hlow : pyLower (s ++ sp ++ "KiB".toList) = s ++ sp ++ "kib".toList := by
        rw [pyLower_append, pyLower_append, pyLower_fix hbs, pyLower_fix hbsp,
          show pyLower "KiB".toList = "kib".toList from by decide]
      have hbr : transferBranch (s ++ sp ++ "kib".toList)
          = (removeAll "kib".toList (s ++ sp ++ "kib".toList), 1024) := by
        have ht := containsL_suffix (s ++ sp) "kib".toList
        unfold transferBranch
        rw [ht]
        simp
      exact (parse_transfer_eval (s ++ sp ++ "KiB".toList) s sp 'k' "ib".toList 1024 x
        hlow hs hsp hbr (numsp_ne hs hsp (by decide)) hx).trans (pyIntMul_eq_floor x hneg 1024)
    · have hlow : pyLower (s ++ sp ++ "MiB".toList) = s ++ sp ++ "mib".toList := by
        rw [pyLower_append, pyLower_append, pyLower_fix hbs, pyLower_fix hbsp,
          show pyLower "MiB".toList = "mib".toList from by decide]
      have hbr : transferBranch (s ++ sp ++ "mib".toList)
          = (removeAll "mib".toList (s ++ sp ++ "mib".toList), 1024 * 1024) := by
        have h1 := @not_containsL (s ++ sp ++ "mib".toList) ("kib".toList) 'k' (by decide)
          (@token_missing s sp ("mib".toList) 'k' hs hsp (by decide) (by decide))
        have ht := containsL_suffix (s ++ sp) "mib".toList
        unfold transferBranch
        rw [h1, ht]
        simp
      exact (parse_transfer_eval (s ++ sp ++ "MiB".toList) s sp 'm' "ib".toList (1024 * 1024) x
        hlow hs hsp hbr (numsp_ne hs hsp (by decide)) hx).trans
        (pyIntMul_eq_floor x hneg (1024 * 1024))
    · have hlow : pyLower (s ++ sp ++ "GiB".toList) = s ++ sp ++ "gib".toList := by
        rw [pyLower_append, pyLower_append, pyLower_fix hbs, pyLower_fix hbsp,
          show pyLower "GiB".toList = "gib".toList from by decide]
      have hbr : transferBranch (s ++ sp ++ "gib".toList)
          = (removeAll "gib".toList (s ++ sp ++ "gib".toList), 1024 * 1024 * 1024) := by
        have h1 := @not_containsL (s ++ sp ++ "gib".toList) ("kib".toList) 'k' (by decide)
          (@token_missing s sp ("gib".toList) 'k' hs hsp (by decide) (by decide))
        have h2 := @not_containsL (s ++ sp ++ "gib".toList) ("mib".toList) 'm' (by decide)
          (@token_missing s sp ("gib".toList) 'm' hs hsp (by decide) (by decide))
        have ht := containsL_suffix (s ++ sp) "gib".toList
        unfold transferBranch
        rw [h1, h2, ht]
        simp
      exact (parse_transfer_eval (s ++ sp ++ "GiB".toList) s sp 'g' "ib".toList
        (1024 * 1024 * 1024) x hlow hs hsp hbr (numsp_ne hs hsp (by decide)) hx).trans
        (pyIntMul_eq_floor x hneg (1024 * 1024 * 1024))
    · have hlow : pyLower (s ++ sp ++ "KB".toList) = s ++ sp ++ "kb".toList := by
        rw [pyLower_append, pyLower_append, pyLower_fix hbs, pyLower_fix hbsp,
          show pyLower "KB".toList = "kb".toList from by decide]
      have hbr : transferBranch (s ++ sp ++ "kb".toList)
          = (removeAll "kb".toList (s ++ sp ++ "kb".toList), 1000) := by
        have h1 := @not_containsL (s ++ sp ++ "kb".toList) ("kib".toList) 'i' (by decide)
          (@token_missing s sp ("kb".toList) 'i' hs hsp (by decide) (by decide))
        have h2 := @not_containsL (s ++ sp ++ "kb".toList) ("mib".toList) 'i' (by decide)
          (@token_missing s sp ("kb".toList) 'i' hs hsp (by decide) (by decide))
        have h3 := @not_containsL (s ++ sp ++ "kb".toList) ("gib".toList) 'i' (by decide)
          (@token_missing s sp ("kb".toList) 'i' hs hsp (by decide) (by decide))
        have ht := containsL_suffix (s ++ sp) "kb".toList
        unfold transferBranch
        rw [h1, h2, h3, ht]
        simp
      exact (parse_transfer_eval (s ++ sp ++ "KB".toList) s sp 'k' "b".toList 1000 x
        hlow hs hsp hbr (numsp_ne hs hsp (by decide)) hx).trans (pyIntMul_eq_floor x hneg 1000)
    · have hlow : pyLower (s ++ sp ++ "MB".toList) = s ++ sp ++ "mb".toList := by
        rw [pyLower_append, pyLower_append, pyLower_fix hbs, pyLower_fix hbsp,
          show pyLower "MB".toList = "mb".toList from by decide]
      have hbr : transferBranch (s ++ sp ++ "mb".toList)
          = (removeAll "mb".toList (s ++ sp ++ "mb".toList), 1000 * 1000) := by
        have h1 := @not_containsL (s ++ sp ++ "mb".toList) ("kib".toList) 'k' (by decide)
          (@token_missing s sp ("mb".toList) 'k' hs hsp (by decide) (by decide))
        have h2 := @not_containsL (s ++ sp ++ "mb".toList) ("mib".toList) 'i' (by decide)
          (@token_missing s sp ("mb".toList) 'i' hs hsp (by decide) (by decide))
        have h3 := @not_containsL (s ++ sp ++ "mb".toList) ("gib".toList) 'i' (by decide)
          (@token_missing s sp ("mb".toList) 'i' hs hsp (by decide) (by decide))
        have h4 := @not_containsL (s ++ sp ++ "mb".toList) ("kb".toList) 'k' (by decide)
          (@token_missing s sp ("mb".toList) 'k' hs hsp (by decide) (by decide))
        have ht := containsL_suffix (s ++ sp) "mb".toList
        unfold transferBranch
        rw [h1, h2, h3, h4, ht]
        simp
      exact (parse_transfer_eval (s ++ sp ++ "MB".toList) s sp 'm' "b".toList (1000 * 1000) x
        hlow hs hsp hbr (numsp_ne hs hsp (by decide)) hx).trans
        (pyIntMul_eq_floor x hneg (1000 * 1000))
    · have hlow : pyLower (s ++ sp ++ "GB".toList) = s ++ sp ++ "gb".toList := by
        rw [pyLower_append, pyLower_append, pyLower_fix hbs, pyLower_fix hbsp,
          show pyLower "GB".toList = "gb".toList from by decide]
      have hbr : transferBranch (s ++ sp ++ "gb".toList)
          = (removeAll "gb".toList (s ++ sp ++ "gb".toList), 1000 * 1000 * 1000) := by
        have h1 := @not_containsL (s ++ sp ++ "gb".toList) ("kib".toList) 'k' (by decide)
          (@token_missing s sp ("gb".toList) 'k' hs hsp (by decide) (by decide))
        have h2 := @not_containsL (s ++ sp ++ "gb".toList) ("mib".toList) 'm' (by decide)
          (@token_missing s sp ("gb".toList) 'm' hs hsp (by decide) (by decide))
        have h3 := @not_containsL (s ++ sp ++ "gb".toList) ("gib".toList) 'i' (by decide)
          (@token_missing s sp ("gb".toList) 'i' hs hsp (by decide) (by decide))
        have h4 := @not_containsL (s ++ sp ++ "gb".toList) ("kb".toList) 'k' (by decide)
          (@token_missing s sp ("gb".toList) 'k' hs hsp (by decide) (by decide))
        have h5 := @not_containsL (s ++ sp ++ "gb".toList) ("mb".toList) 'm' (by decide)
          (@token_missing s sp ("gb".toList) 'm' hs hsp (by decide) (by decide))
        have ht := containsL_suffix (s ++ sp) "gb".toList
        unfold transferBranch
        rw [h1, h2, h3, h4, h5, ht]
        simp
      exact (parse_transfer_eval (s ++ sp ++ "GB".toList) s sp 'g' "b".toList
        (1000 * 1000 * 1000) x hlow hs hsp hbr (numsp_ne hs hsp (by decide)) hx).trans
        (pyIntMul_eq_floor x hneg (1000 * 1000 * 1000))
  · intro s x hs hx hneg
    have hb : transferBranch s = (s, 1) := by
      have h1 := @not_containsL s ("kib".toList) 'k' (by decide)
        (fun ch hch => numChar_ne (hs ch hch) (by decide))
      have h2 := @not_containsL s ("mib".toList) 'm' (by decide)
        (fun ch hch => numChar_ne (hs ch hch) (by decide))
      have h3 := @not_containsL s ("gib".toList) 'g' (by decide)
        (fun ch hch => numChar_ne (hs ch hch) (by decide))
      have h4 := @not_containsL s ("kb".toList) 'k' (by decide)
        (fun ch hch => numChar_ne (hs ch hch) (by decide))
      have h5 := @not_containsL s ("mb".toList) 'm' (by decide)
        (fun ch hch => numChar_ne (hs ch hch) (by decide))
      have h6 := @not_containsL s ("gb".toList) 'g' (by decide)
        (fun ch hch => numChar_ne (hs ch hch) (by decide))
      unfold transferBranch
      rw [h1, h2, h3, h4, h5, h6]
      simp
    simp only [parse_transfer]
    rw [pyLower_fix (fun c hc => Or.inl (numChar_bound (hs c hc))), hb]
    dsimp only
    rw [pyStrip_no_ws (fun c hc => numChar_not_ws (hs c hc)), hx]
    dsimp only
    rw [pyIntMul_eq_floor x hneg 1]
    norm_num
  · intro s h
    simp only [parse_transfer]
    rw [h]

/-- C3 witness: concrete instantiation of `parse_transfer_spec` at
`1.5 KiB`. -/
theorem parse_transfer_spec_witness :
    parse_transfer ("1.5".toList ++ " ".toList ++ "KiB".toList)
      = ⌊(PyFloat.mk false 15 1).toRat * ((1024 : ℕ) : ℚ)⌋
    ∧ ⌊(PyFloat.mk false 15 1).toRat * ((1024 : ℕ) : ℚ)⌋ = 1536
    ∧ parse_transfer "1.5 KiB".toList = 1536 := by
  have h := parse_transfer_spec.1 ("KiB".toList, 1024) (by decide) "1.5".toList " ".toList
    ⟨false, 15, 1⟩ (by decide) (by decide) (by decide) rfl
  refine ⟨h, ?_, by decide⟩
  have hv : (PyFloat.mk false 15 1).toRat * ((1024 : ℕ) : ℚ) = ((1536 : ℤ) : ℚ) := by
    norm_num [PyFloat.toRat]
  rw [hv, Int.floor_intCast]

/-- C4: a failure output reading exactly `Permission denied` is not
classified non-retryable — the source searches for the capitalized literal
inside the lowered output, which can never match — so with 3 allowed
attempts the runner is invoked 3 times, not once as claimed. -/
theorem retry_permission_denied_retried :
    nonRetryableBreak "Permission denied".toList = false
    ∧ (run_command_with_retry (fun _ => (false, "Permission denied".toList)) 3).2 = 3
    ∧ run_command_with_retry (fun _ => (false, "Permission denied".toList)) 3
        = ((false, "Permission denied".toList), 3) := by decide
